import Mathlib

/-!
Verification of the frame decoding → quantization → re-encoding pipeline of the
8-bit Studio image converter (src/src/App.tsx), against its natural-language
specification. The TypeScript functions are shallowly embedded as executable
Lean definitions: JavaScript numbers that are always used as machine integers
become `Nat`/`Int`, the one function that branches on non-finite inputs models
its argument as an inductive JavaScript-number type over `ℚ`, byte buffers
become `List Nat`, thrown exceptions become `Option`, and the browser
collaborators (the GIF bit-stream decoder's per-frame blit, `URL` object
handles) are modelled at their interface boundary.
-/

set_option maxRecDepth 8000

/-- A JavaScript number as consumed by `clampFrameDelay`: either one of the
non-finite values or a finite value, modelled as an exact rational. -/
inductive JsNumber where
  | nan : JsNumber
  | posInf : JsNumber
  | negInf : JsNumber
  | finite : ℚ → JsNumber

/-- `Number.isFinite`. -/
def jsIsFinite : JsNumber → Bool
  | JsNumber.nan => false
  | JsNumber.posInf => false
  | JsNumber.negInf => false
  | JsNumber.finite _ => true

/-- The JavaScript comparison `delay <= 0` (false on NaN). -/
def jsLeZero : JsNumber → Bool
  | JsNumber.nan => false
  | JsNumber.posInf => false
  | JsNumber.negInf => true
  | JsNumber.finite q => decide (q ≤ 0)

/-- The finite payload of a `JsNumber` (never used on the non-finite values). -/
def jsToRat : JsNumber → ℚ
  | JsNumber.finite q => q
  | _ => 0

/-- `Math.round` on an exact rational: floor of `q + 1/2`, written as an
integer floor division so that it evaluates in the kernel. -/
def jsRound (q : ℚ) : ℤ :=
  (2 * q.num + (q.den : ℤ)) / (2 * (q.den : ℤ))

/-- `clampFrameDelay` (App.tsx 1227–1235): non-finite or non-positive delays
become 6, anything else is rounded and clamped to `[1, 65535]`. -/
def clampFrameDelay (delay : JsNumber) : ℤ :=
  if jsIsFinite delay = false ∨ jsLeZero delay = true then 6
  else max 1 (min 65535 (jsRound (jsToRat delay)))

/-- `MAX_GIF_PIXELS` (App.tsx 217). -/
def MAX_GIF_PIXELS : Nat := 4000000

/-- Fuel-bounded Newton iteration for the integer square root; the fuel only
bounds the (logarithmic) number of strictly decreasing guesses, so the
function evaluates inside the kernel. -/
def newtonSqrtAux (n : Nat) : Nat → Nat → Nat
  | 0, guess => guess
  | f + 1, guess =>
    let next := (guess + n / guess) / 2
    if next < guess then newtonSqrtAux n f next else guess

/-- `Math.floor(Math.sqrt(n))` for a natural `n`: the integer square root. -/
def jsSqrtFloor (n : Nat) : Nat := if n ≤ 1 then n else newtonSqrtAux n n (n / 2)

/-- `getSafeGifPixelSize` (App.tsx 1237–1270). On naturals the degenerate
guard `frameArea <= 0 || !isFinite || frameCount <= 0` is `= 0`, and the float
expression `floor(sqrt(MAX_GIF_PIXELS / (frameArea * frameCount)))` is the
integer square root of the integer quotient. -/
def getSafeGifPixelSize (sampleWidth sampleHeight frameCount desiredPixelSize : Nat) : Nat :=
  let frameArea := sampleWidth * sampleHeight
  if frameArea = 0 ∨ frameCount = 0 then max 1 desiredPixelSize
  else
    let maxPixelSize := jsSqrtFloor (MAX_GIF_PIXELS / max (frameArea * frameCount) 1)
    if maxPixelSize = 0 then 1
    else max 1 (min desiredPixelSize maxPixelSize)

/-- The non-degenerate branch of `getSafeGifPixelSize` as a function of the
total cell budget `P = frameArea * frameCount`. -/
def pixelBudgetBody (P d : Nat) : Nat :=
  if jsSqrtFloor (MAX_GIF_PIXELS / max P 1) = 0 then 1
  else max 1 (min d (jsSqrtFloor (MAX_GIF_PIXELS / max P 1)))

/-- A decoded RGB triple. -/
structure Rgb where
  r : Nat
  g : Nat
  b : Nat
deriving DecidableEq

/-- Value of an ASCII hex digit (0 for any other character). -/
def hexDigitVal (c : Char) : Nat :=
  if 48 ≤ c.toNat ∧ c.toNat ≤ 57 then c.toNat - 48
  else if 97 ≤ c.toNat ∧ c.toNat ≤ 102 then c.toNat - 87
  else 0

/-- JavaScript `String.prototype.toLowerCase` on the ASCII strings used here:
lowercase every character. -/
def jsToLowerCase (s : String) : String := String.mk (s.data.map Char.toLower)

/-- Drop a leading `#` (character code 35) from a hex string. -/
def stripHash (s : String) : List Char :=
  match s.data with
  | c :: rest => if c.toNat = 35 then rest else s.data
  | [] => []

/-- Modelled from the spec: `hexToRgb` lives in `src/lib/utils.ts`, which is
not among the provided sources. The data model says every palette entry pairs
a hex string with its decoded RGB triple, so this decodes a `#rrggbb` string
into its three byte components. -/
def hexToRgb (hex : String) : Rgb :=
  let ds := ((stripHash hex).map Char.toLower).map hexDigitVal
  ⟨16 * ds.getD 0 0 + ds.getD 1 0, 16 * ds.getD 2 0 + ds.getD 3 0, 16 * ds.getD 4 0 + ds.getD 5 0⟩

/-- The value returned by `buildPaletteLookup` (App.tsx 1345–1349): packed
palette colors, the hex → slot map (modelled as its lookup function) and the
fallback slot. -/
structure PaletteLookup where
  paletteColors : List Nat
  colorIndexMap : String → Option Nat
  fallbackIndex : Nat

/-- `Array.from(new Set(l))`: deduplicate preserving first-seen order. -/
def dedupKeepFirst (l : List String) : List String :=
  l.foldl (fun acc h => if h ∈ acc then acc else acc ++ [h]) []

/-- The input list of `buildPaletteLookup` after the empty-palette default
(App.tsx 1286–1293). -/
def paletteBase (palette : List String) : List String :=
  if palette = [] then [("#000000"), ("#ffffff")] else palette

/-- `normalizedPalette` (App.tsx 1286–1303): lowercase, deduplicate, replace
an empty result by the black/white default and duplicate a single color. -/
def normalizedPalette (palette : List String) : List String :=
  match dedupKeepFirst ((paletteBase palette).map (fun h => jsToLowerCase h)) with
  | [] => [("#000000"), ("#ffffff")]
  | [c] => [c, c]
  | c1 :: c2 :: rest => c1 :: c2 :: rest

/-- Fuel-bounded ceiling log base 2; `Math.ceil(Math.log2 n)` is exact for the
arguments (at most 256) this pipeline produces. -/
def ceilLog2Aux : Nat → Nat → Nat
  | 0, _ => 0
  | f + 1, n => if n ≤ 1 then 0 else ceilLog2Aux f ((n + 1) / 2) + 1

/-- `Math.ceil(Math.log2 n)`. -/
def ceilLog2 (n : Nat) : Nat := ceilLog2Aux n n

/-- `cappedLength` (App.tsx 1304–1307). -/
def cappedLength (palette : List String) : Nat :=
  min 256 (normalizedPalette palette).length

/-- `targetSize` (App.tsx 1308–1316): next power of two at least the capped
count and at least 2. -/
def targetSize (palette : List String) : Nat :=
  max 2 (2 ^ ceilLog2 (max 2 (cappedLength palette)))

/-- `fallbackHex` (App.tsx 1317–1320): the last normalized color. -/
def fallbackHex (palette : List String) : String :=
  (normalizedPalette palette).getD ((normalizedPalette palette).length - 1) ("")

/-- `paddedPalette` (App.tsx 1321–1327): slice to the target size, then pad
with the fallback color up to it. -/
def paddedPalette (palette : List String) : List String :=
  (normalizedPalette palette).take (targetSize palette) ++
    List.replicate (targetSize palette - (normalizedPalette palette).length)
      (fallbackHex palette)

/-- Index of the first occurrence of `hex`, i.e. the value stored for `hex` by
the first-occurrence-wins `colorIndexMap` construction (App.tsx 1334–1342). -/
def firstIndexOf (hex : String) : List String → Option Nat
  | [] => none
  | c :: t => if c = hex then some 0 else (firstIndexOf hex t).map (· + 1)

/-- `colorIndexMap.get` for the map built over the padded palette. -/
def colorIndexMapGet (palette : List String) (hex : String) : Option Nat :=
  firstIndexOf hex (paddedPalette palette)

/-- `fallbackIndex` (App.tsx 1343–1344): `colorIndexMap.get(fallbackHex) ?? 0`. -/
def fallbackIndex (palette : List String) : Nat :=
  (colorIndexMapGet palette (fallbackHex palette)).getD 0

/-- `buildPaletteLookup` (App.tsx 1285–1350). -/
def buildPaletteLookup (palette : List String) : PaletteLookup :=
  ⟨(paddedPalette palette).map (fun h =>
      ((hexToRgb h).r <<< 16) ||| ((hexToRgb h).g <<< 8) ||| (hexToRgb h).b),
   colorIndexMapGet palette,
   fallbackIndex palette⟩

/-- The per-cell slot lookup of `colorGridToIndexedPixels` (App.tsx
1382–1388): lowercase the cell's hex, look it up, fall back to the fallback
slot. -/
def cellIndex (lut : PaletteLookup) (s : String) : Nat :=
  (lut.colorIndexMap (jsToLowerCase s)).getD lut.fallbackIndex

/-- `colorGridToIndexedPixels` (App.tsx 1352–1404): `none` models the thrown
`Error("Color grid is empty.")`; writes into a `Uint8Array` wrap modulo 256. -/
def colorGridToIndexedPixels (colors : List (List String)) (pixelSize : Nat)
    (lut : PaletteLookup) : Option (List Nat) :=
  let sampleHeight := colors.length
  let sampleWidth := (colors.headD []).length
  if sampleHeight = 0 ∨ sampleWidth = 0 then none
  else
    let finalWidth := sampleWidth * pixelSize
    let finalHeight := sampleHeight * pixelSize
    some ((List.range sampleHeight).foldl (fun buf1 y =>
      (List.range pixelSize).foldl (fun buf2 dy =>
        (List.range sampleWidth).foldl (fun buf3 x =>
          (List.range pixelSize).foldl (fun buf4 dx =>
            buf4.set ((y * pixelSize + dy) * finalWidth + (x * pixelSize + dx))
              (cellIndex lut ((colors.getD y []).getD x ("")) % 256)
          ) buf3
        ) buf2
      ) buf1
    ) (List.replicate (finalWidth * finalHeight) 0))

/-- Hex digit character for a value below 16. -/
def hexDigitChar (n : Nat) : Char :=
  Char.ofNat (if n < 10 then 48 + n else 87 + n)

/-- Two-digit lowercase hex rendering of a byte. -/
def hexByte (n : Nat) : String :=
  String.mk [hexDigitChar (n / 16), hexDigitChar (n % 16)]

/-- The i-th color of the 257-color counterexample palette. -/
def bigColor (i : Nat) : String :=
  ("#") ++ hexByte (i % 256) ++ hexByte (i / 256) ++ ("00")

/-- Parse a `bigColor` string back to its index (left inverse of `bigColor`
below 65536). -/
def bigColorIndex (s : String) : Nat :=
  match s.data with
  | _ :: a :: b :: c :: d :: _ =>
    (hexDigitVal a * 16 + hexDigitVal b) + 256 * (hexDigitVal c * 16 + hexDigitVal d)
  | _ => 0

/-- A palette of 257 pairwise distinct lowercase hex colors. -/
def big257Palette : List String := (List.range 257).map bigColor

/-- A palette entry as used by the quantizer: a hex string together with its
decoded RGB triple (App.tsx 200–203, 257–264). -/
structure PaletteEntry where
  hex : String
  rgb : Rgb
deriving DecidableEq

/-- The squared Euclidean RGB distance computed in the quantizer loops
(App.tsx 1099–1102, 1212–1215); alpha is ignored. -/
def sqDist (c : Rgb) (r g b : Nat) : ℤ :=
  ((c.r : ℤ) - (r : ℤ)) ^ 2 + ((c.g : ℤ) - (g : ℤ)) ^ 2 + ((c.b : ℤ) - (b : ℤ)) ^ 2

/-- `Number.MAX_VALUE`, the initial best distance of the nearest-color scan:
the exact integer value of `(2^53 - 1) * 2^971`, written as a literal so that
it evaluates without deep recursion. -/
def maxDistanceInit : ℤ := 179769313486231570814527423731704356798070567525844996598917476803157260780028538760589558632766878171540458953514382464234321326889464182768467546703537516986049910576551282076245490090389328944075868508455133942304583236903222948165808559332123348274797826204144723168738177180919299881250404026184124858368

/-- The nearest-color scan of `quantizeFramePixels` (App.tsx 1208–1220):
start from the first entry and `Number.MAX_VALUE`, replace the best on a
strictly smaller distance (so the first-seen entry wins ties). -/
def selectClosest (paletteData : List PaletteEntry) (r g b : Nat) : PaletteEntry :=
  (paletteData.foldl
    (fun acc entry =>
      if sqDist entry.rgb r g b < acc.2 then (entry, sqDist entry.rgb r g b) else acc)
    (paletteData.headD ⟨(""), ⟨0, 0, 0⟩⟩, maxDistanceInit)).1

/-- Recursive form of the first-minimum scan, for reasoning about the fold. -/
def argminFirst (r g b : Nat) : PaletteEntry → List PaletteEntry → PaletteEntry
  | c, [] => c
  | c, e :: t =>
    if sqDist e.rgb r g b < sqDist c.rgb r g b then argminFirst r g b e t
    else argminFirst r g b c t

/-- The specification's nearest entry: the first palette entry whose distance
is at most every other entry's distance (minimum with first-seen tie-break). -/
def specNearestEntry (paletteData : List PaletteEntry) (r g b : Nat) : Option PaletteEntry :=
  paletteData.find? (fun e =>
    paletteData.all (fun e2 => decide (sqDist e.rgb r g b ≤ sqDist e2.rgb r g b)))

/-- The coordinate clamp of `quantizeFramePixels` (App.tsx 1183–1184):
`Math.min(max - 1, Math.max(0, value))` on naturals. -/
def clampIndex (value maxDim : Nat) : Nat := min (maxDim - 1) value

/-- Byte offset of the source pixel sampled for grid cell `(x, y)` (App.tsx
1186–1204): grid cell centers map to source pixels via
`floor(((coord + 0.5) / gridDim) * sourceDim)` — exactly
`((2*coord+1) * sourceDim) / (2*gridDim)` on naturals — clamped to
`[0, sourceDim-1]`. -/
def samplePixelIndex (sourceWidth sourceHeight sampleWidth sampleHeight x y : Nat) : Nat :=
  (clampIndex (((2 * y + 1) * sourceHeight) / (2 * sampleHeight)) sourceHeight * sourceWidth +
    clampIndex (((2 * x + 1) * sourceWidth) / (2 * sampleWidth)) sourceWidth) * 4

/-- `quantizeFramePixels` (App.tsx 1164–1225): nearest-neighbor downsampling
of an RGBA frame buffer followed by nearest-palette-color selection. -/
def quantizeFramePixels (framePixels : List Nat)
    (sourceWidth sourceHeight sampleWidth sampleHeight : Nat)
    (paletteData : List PaletteEntry) : List (List String) :=
  (List.range sampleHeight).map (fun y =>
    (List.range sampleWidth).map (fun x =>
      (selectClosest paletteData
        (framePixels.getD (samplePixelIndex sourceWidth sourceHeight sampleWidth sampleHeight x y) 0)
        (framePixels.getD (samplePixelIndex sourceWidth sourceHeight sampleWidth sampleHeight x y + 1) 0)
        (framePixels.getD (samplePixelIndex sourceWidth sourceHeight sampleWidth sampleHeight x y + 2) 0)).hex))

/-- The black/white example palette, built the way `App` builds `paletteData`
from hex strings. -/
def bwPalette : List PaletteEntry :=
  [("#000000"), ("#ffffff")].map (fun h => ⟨h, hexToRgb h⟩)

/-- The vector payload committed by `finalize` (App.tsx 429–436). -/
structure VectorData where
  colors : List (List String)
  width : Nat
  height : Nat
  pixelSize : Nat
deriving DecidableEq

/-- The orchestrator state touched by `rebuild` and `finalize`: the job
counter `jobRef`, whether a source is loaded (`sourcePreview`/`sourceGif`
combined), and the React state cells these functions write. Revoking an
object URL (`URL.revokeObjectURL`) is modelled by recording the URL in
`revokedUrls`. -/
structure AppState where
  currentJob : Nat
  hasSource : Bool
  resultPreview : Option String
  vectorData : Option VectorData
  status : String
  isProcessing : Bool
  revokedUrls : List String
deriving DecidableEq

/-- `previewUrl.startsWith("blob:")` (App.tsx 417–421). -/
def isBlobUrl (s : String) : Bool :=
  s.data.take 5 == ['b', 'l', 'o', 'b', ':']

/-- `finalize` (App.tsx 407–439) as a pure state transition: a completion
carrying its job id, preview URL, optional vector data and status. A stale
completion only revokes its blob URL; a current one commits result, vector
data and status and clears the processing flag. -/
def finalize (s : AppState) (jobId : Nat) (previewUrl : String)
    (vector : Option (List (List String) × Nat × Nat)) (pixelSize : Nat)
    (nextStatus : String) : AppState :=
  if s.currentJob ≠ jobId then
    if isBlobUrl previewUrl then
      { s with revokedUrls := s.revokedUrls ++ [previewUrl] }
    else s
  else
    let s1 := { s with resultPreview := some previewUrl }
    let s2 :=
      match vector with
      | some v => { s1 with vectorData := some ⟨v.1, v.2.1, v.2.2, pixelSize⟩ }
      | none => s1
    { s2 with
      status := nextStatus,
      isProcessing := false }

/-- `rebuild` (App.tsx 706–720): with no source it only sets a message;
otherwise it allocates the next job id, stores it in `jobRef`, marks
processing, and clears the previous result, returning the new job id handed
to `convertImage`. -/
def rebuild (s : AppState) : AppState × Option Nat :=
  if s.hasSource = false then
    ({ s with status := ("Please upload an image first.") }, none)
  else
    ({ s with
        currentJob := s.currentJob + 1,
        isProcessing := true,
        status := ("Building pixel preview..."),
        vectorData := none,
        resultPreview := none }, some (s.currentJob + 1))

/-- A concrete freshly loaded state. -/
def exAppState : AppState := ⟨0, true, none, none, (""), false, []⟩

/-- Metadata of one GIF frame as exposed by the container parser
(`reader.frameInfo`): its rectangle, its delay (absent modelling JavaScript
`undefined`), and its disposal code. -/
structure FrameInfo where
  x : Nat
  y : Nat
  width : Nat
  height : Nat
  delay : Option Nat
  disposal : Nat

/-- Apply `f index value` to every element, indices starting at `start`;
models in-place index-addressed writes over a byte buffer. -/
def mapIdxFrom (f : Nat → Nat → Nat) : Nat → List Nat → List Nat
  | _, [] => []
  | i, b :: t => f i b :: mapIdxFrom f (i + 1) t

/-- `buffer.fill(v, start, stop)` on a byte buffer. -/
def fillRange (buf : List Nat) (v start stop : Nat) : List Nat :=
  mapIdxFrom (fun i b => if start ≤ i ∧ i < stop then v else b) 0 buf

/-- `clearFrameRegion` (App.tsx 1459–1480): zero `frame.width * 4` bytes from
each row's start offset. -/
def clearFrameRegion (buffer : List Nat) (canvasWidth : Nat) (frame : FrameInfo) : List Nat :=
  (List.range frame.height).foldl
    (fun buf row =>
      fillRange buf 0 (((frame.y + row) * canvasWidth + frame.x) * 4)
        (((frame.y + row) * canvasWidth + frame.x) * 4 + frame.width * 4))
    buffer

/-- One captured animation frame: an immutable RGBA buffer plus its delay. -/
structure GifFrameData where
  pixels : List Nat
  delay : Nat
deriving DecidableEq

/-- The collaborator GIF parser (`GifReader`) at its interface boundary:
global dimensions, loop count, and per frame its `frameInfo` together with
its `decodeAndBlitFrameRGBA` operation, modelled as the buffer transformer
that composites the frame's delta onto a caller-supplied canvas. -/
structure GifReaderModel where
  width : Nat
  height : Nat
  loopCount : Option Int
  frames : List (FrameInfo × (List Nat → List Nat))

/-- `GifSource` (App.tsx 210–215). -/
structure GifSource where
  width : Nat
  height : Nat
  loopCount : Option Int
  frames : List GifFrameData

/-- The body of `extractGifSource`'s frame loop (App.tsx 1421–1450):
snapshot on disposal 3, composite, capture, then post-capture disposal. -/
def extractGifStep (canvasWidth : Nat) (acc : List Nat × List GifFrameData)
    (fr : FrameInfo × (List Nat → List Nat)) : List Nat × List GifFrameData :=
  let restoreBuffer : Option (List Nat) :=
    if fr.1.disposal = 3 then some acc.1 else none
  let canvasState := fr.2 acc.1
  let captured : GifFrameData := ⟨canvasState, fr.1.delay.getD 0⟩
  let nextCanvas :=
    if fr.1.disposal = 2 then clearFrameRegion canvasState canvasWidth fr.1
    else
      match restoreBuffer with
      | some snapshot => if fr.1.disposal = 3 then snapshot else canvasState
      | none => canvasState
  (nextCanvas, acc.2 ++ [captured])

/-- `extractGifSource` (App.tsx 1406–1457): `none` models the thrown
`Error("GIF contains no frames")`; the shared canvas starts as zeroes. -/
def extractGifSource (reader : GifReaderModel) : Option GifSource :=
  if reader.frames.length = 0 then none
  else
    some ⟨reader.width, reader.height, reader.loopCount,
      (reader.frames.foldl (extractGifStep reader.width)
        (List.replicate (reader.width * reader.height * 4) 0, [])).2⟩

/-- The specification's region clear: set all four bytes of every pixel whose
coordinates lie in the frame's rectangle to zero (fully transparent). -/
def specClearRegion (buffer : List Nat) (canvasWidth : Nat) (frame : FrameInfo) : List Nat :=
  mapIdxFrom (fun i b =>
    if frame.x ≤ i / 4 % canvasWidth ∧ i / 4 % canvasWidth < frame.x + frame.width ∧
        frame.y ≤ i / 4 / canvasWidth ∧ i / 4 / canvasWidth < frame.y + frame.height
    then 0 else b) 0 buffer

/-- One step of the disposal state machine as the specification words it:
snapshot the canvas, composite the frame's delta, capture the composited
canvas with the frame's delay, then clear the frame's rectangle (code 2),
restore the snapshot (code 3), or leave the canvas unchanged. -/
def specDisposalStep (canvasWidth : Nat) (acc : List Nat × List GifFrameData)
    (fr : FrameInfo × (List Nat → List Nat)) : List Nat × List GifFrameData :=
  let snapshot := acc.1
  let composited := fr.2 acc.1
  let captured : GifFrameData := ⟨composited, fr.1.delay.getD 0⟩
  let nextCanvas :=
    if fr.1.disposal = 2 then specClearRegion composited canvasWidth fr.1
    else if fr.1.disposal = 3 then snapshot
    else composited
  (nextCanvas, acc.2 ++ [captured])

/-- The frames the specification's disposal state machine produces, starting
from a zeroed shared canvas. -/
def specDisposalFrames (reader : GifReaderModel) : List GifFrameData :=
  (reader.frames.foldl (specDisposalStep reader.width)
    (List.replicate (reader.width * reader.height * 4) 0, [])).2

/-- A collaborator blit writing the constant RGBA color into a rectangle. -/
def exampleBlit (cw x0 y0 w h r g b a : Nat) : List Nat → List Nat :=
  fun canvas =>
    mapIdxFrom (fun i v =>
      if x0 ≤ i / 4 % cw ∧ i / 4 % cw < x0 + w ∧ y0 ≤ i / 4 / cw ∧ i / 4 / cw < y0 + h
      then (if i % 4 = 0 then r else if i % 4 = 1 then g else if i % 4 = 2 then b else a)
      else v) 0 canvas

/-- The claim's 2-frame source on a 16×16 canvas: frame 0 covers the full
canvas with disposal 2 (restore-background), frame 1 is a 10×10 patch at
(5,5). -/
def gifExampleReader : GifReaderModel :=
  ⟨16, 16, some 0,
    [(⟨0, 0, 16, 16, some 4, 2⟩, exampleBlit 16 0 0 16 16 10 20 30 255),
     (⟨5, 5, 10, 10, some 4, 0⟩, exampleBlit 16 5 5 10 10 200 100 50 255)]⟩

/-- The captured frame-1 buffer of the example source. -/
def gifExampleFrame1 : List Nat :=
  match extractGifSource gifExampleReader with
  | some s => (s.frames.getD 1 ⟨[], 0⟩).pixels
  | none => []

/-- The claimed contents of the frame-1 buffer: fully transparent (all four
bytes zero) outside the 10×10 patch at (5,5), frame 1's RGBA inside it. -/
def gifExampleExpected : List Nat :=
  (List.range 1024).map (fun i =>
    if 5 ≤ i / 4 % 16 ∧ i / 4 % 16 < 15 ∧ 5 ≤ i / 4 / 16 ∧ i / 4 / 16 < 15 then
      (if i % 4 = 0 then 200 else if i % 4 = 1 then 100 else if i % 4 = 2 then 50 else 255)
    else 0)

-- ===== THEOREMS =====

lemma buildPaletteLookup_colorIndexMap (p : List String) :
    (buildPaletteLookup p).colorIndexMap = colorIndexMapGet p := by
  rw [buildPaletteLookup]

lemma buildPaletteLookup_fallbackIndex (p : List String) :
    (buildPaletteLookup p).fallbackIndex = fallbackIndex p := by
  rw [buildPaletteLookup]

lemma buildPaletteLookup_paletteColors_length (p : List String) :
    (buildPaletteLookup p).paletteColors.length = (paddedPalette p).length := by
  rw [buildPaletteLookup]
  exact List.length_map _ _

lemma jsRound_eq_round (q : ℚ) : jsRound q = round q := by
  rw [round_eq, jsRound]
  have hden : ((q.den : ℚ)) ≠ 0 := by
    exact_mod_cast q.den_nz
  have h2 : q * (q.den : ℚ) = (q.num : ℚ) := by
    have h3 := Rat.num_div_den q
    rw [div_eq_iff hden] at h3
    linarith [h3]
  have hq : q + 1/2 = ((2 * q.num + (q.den : ℤ) : ℤ) : ℚ) / ((2 * q.den : ℕ) : ℚ) := by
    rw [eq_div_iff (by positivity)]
    push_cast
    ring_nf
    ring_nf at h2
    linarith [h2]
  rw [hq, Rat.floor_intCast_div_natCast]
  push_cast
  ring_nf

lemma newtonSqrtAux_eq_iter (n : Nat) :
    ∀ fuel guess, guess ≤ fuel → newtonSqrtAux n fuel guess = Nat.sqrt.iter n guess := by
  intro fuel
  induction fuel with
  | zero =>
    intro g hg
    have hg0 : g = 0 := by omega
    subst hg0
    rw [Nat.sqrt.iter]
    simp [newtonSqrtAux]
  | succ f ih =>
    intro g hg
    rw [newtonSqrtAux, Nat.sqrt.iter]
    by_cases h : (g + n / g) / 2 < g
    · simp only [h, if_true, dif_pos h]
      exact ih _ (by omega)
    · simp [h]

lemma jsSqrtFloor_eq_sqrt (n : Nat) : jsSqrtFloor n = Nat.sqrt n := by
  rw [jsSqrtFloor, Nat.sqrt]
  split
  · rfl
  · exact newtonSqrtAux_eq_iter n n (n / 2) (by omega)

lemma jsSqrtFloor_sq_le (n : Nat) : jsSqrtFloor n * jsSqrtFloor n ≤ n := by
  rw [jsSqrtFloor_eq_sqrt]
  exact Nat.sqrt_le n

lemma le_jsSqrtFloor_of_sq_le {k n : Nat} (h : k * k ≤ n) : k ≤ jsSqrtFloor n := by
  rw [jsSqrtFloor_eq_sqrt]
  exact Nat.le_sqrt.2 h

lemma jsSqrtFloor_mono {m n : Nat} (h : m ≤ n) : jsSqrtFloor m ≤ jsSqrtFloor n :=
  le_jsSqrtFloor_of_sq_le (le_trans (jsSqrtFloor_sq_le m) h)

lemma jsSqrtFloor_pos {n : Nat} (h : 1 ≤ n) : 1 ≤ jsSqrtFloor n :=
  le_jsSqrtFloor_of_sq_le (by omega)

lemma jsSqrtFloor_zero : jsSqrtFloor 0 = 0 := rfl

lemma pixelBudgetBody_pos (P d : Nat) : 1 ≤ pixelBudgetBody P d := by
  rw [pixelBudgetBody]
  split
  · exact le_refl 1
  · exact Nat.le_max_left 1 _

lemma pixelBudgetBody_le (P d : Nat) : pixelBudgetBody P d ≤ max 1 d := by
  rw [pixelBudgetBody]
  split
  · exact Nat.le_max_left 1 d
  · exact max_le_max (le_refl 1) (Nat.min_le_left _ _)

lemma pixelBudgetBody_antitone {P1 P2 : Nat} (d : Nat) (h : P1 ≤ P2) :
    pixelBudgetBody P2 d ≤ pixelBudgetBody P1 d := by
  have hm : jsSqrtFloor (MAX_GIF_PIXELS / max P2 1) ≤ jsSqrtFloor (MAX_GIF_PIXELS / max P1 1) := by
    apply jsSqrtFloor_mono
    apply Nat.div_le_div_left
    · exact max_le_max h (le_refl 1)
    · exact lt_of_lt_of_le Nat.zero_lt_one (Nat.le_max_right P1 1)
  rw [pixelBudgetBody, pixelBudgetBody]
  by_cases h2 : jsSqrtFloor (MAX_GIF_PIXELS / max P2 1) = 0
  · rw [if_pos h2]
    split
    · exact le_refl 1
    · exact Nat.le_max_left 1 _
  · have h1 : jsSqrtFloor (MAX_GIF_PIXELS / max P1 1) ≠ 0 := by omega
    rw [if_neg h2, if_neg h1]
    exact max_le_max (le_refl 1) (min_le_min (le_refl d) hm)

lemma getSafeGifPixelSize_eq_body {w h fc : Nat} (d : Nat) (hA : w * h ≠ 0) (hf : fc ≠ 0) :
    getSafeGifPixelSize w h fc d = pixelBudgetBody (w * h * fc) d := by
  rw [getSafeGifPixelSize, pixelBudgetBody]
  simp only [hA, hf, or_self, if_false]

lemma getSafeGifPixelSize_le_max (w h fc d : Nat) :
    getSafeGifPixelSize w h fc d ≤ max 1 d := by
  by_cases hA : w * h = 0
  · rw [getSafeGifPixelSize]
    simp [hA]
  · by_cases hf : fc = 0
    · rw [getSafeGifPixelSize]
      simp [hf]
    · rw [getSafeGifPixelSize_eq_body d hA hf]
      exact pixelBudgetBody_le _ d

lemma one_le_getSafeGifPixelSize (w h fc d : Nat) :
    1 ≤ getSafeGifPixelSize w h fc d := by
  by_cases hA : w * h = 0
  · rw [getSafeGifPixelSize]
    simp [hA]
  · by_cases hf : fc = 0
    · rw [getSafeGifPixelSize]
      simp [hf]
    · rw [getSafeGifPixelSize_eq_body d hA hf]
      exact pixelBudgetBody_pos _ d

/-- C5 counterexample: with a desired block size of `0` the solver returns `1`,
which exceeds the desired size, refuting the unconditional claim that the
result never exceeds `desired`. -/
theorem getSafeGifPixelSize_exceeds_desired_counterexample :
    ¬ (getSafeGifPixelSize 1 1 1 0 ≤ 0) := by decide

/-- C5 (amended): `getSafeGifPixelSize` is non-increasing in the frame count,
non-increasing in the sample-area product `w*h`, and its result never exceeds
the desired block size provided the desired size is at least 1 (for a desired
size of 0 it still returns the minimum legal block size 1). -/
theorem getSafeGifPixelSize_monotone :
    ∀ (w h d fc1 fc2 w1 h1 w2 h2 fc : Nat),
      (fc1 ≤ fc2 → getSafeGifPixelSize w h fc2 d ≤ getSafeGifPixelSize w h fc1 d) ∧
      (w1 * h1 ≤ w2 * h2 → getSafeGifPixelSize w2 h2 fc d ≤ getSafeGifPixelSize w1 h1 fc d) ∧
      (1 ≤ d → getSafeGifPixelSize w h fc d ≤ d) := by
  intro w h d fc1 fc2 w1 h1 w2 h2 fc
  refine ⟨?_, ?_, ?_⟩
  · intro hfc
    by_cases hA : w * h = 0
    · simp [getSafeGifPixelSize, hA]
    · by_cases hf1 : fc1 = 0
      · have hle := getSafeGifPixelSize_le_max w h fc2 d
        have he : getSafeGifPixelSize w h fc1 d = max 1 d := by
          simp [getSafeGifPixelSize, hf1]
        rw [he]
        exact hle
      · have hf2 : fc2 ≠ 0 := by omega
        rw [getSafeGifPixelSize_eq_body d hA hf1, getSafeGifPixelSize_eq_body d hA hf2]
        exact pixelBudgetBody_antitone d (Nat.mul_le_mul_left _ hfc)
  · intro hwh
    by_cases hf : fc = 0
    · simp [getSafeGifPixelSize, hf]
    · by_cases hA1 : w1 * h1 = 0
      · have hle := getSafeGifPixelSize_le_max w2 h2 fc d
        have he : getSafeGifPixelSize w1 h1 fc d = max 1 d := by
          simp [getSafeGifPixelSize, hA1]
        rw [he]
        exact hle
      · have hA2 : w2 * h2 ≠ 0 := by omega
        rw [getSafeGifPixelSize_eq_body d hA1 hf, getSafeGifPixelSize_eq_body d hA2 hf]
        exact pixelBudgetBody_antitone d (Nat.mul_le_mul_right _ hwh)
  · intro hd
    have hle := getSafeGifPixelSize_le_max w h fc d
    rw [max_eq_right hd] at hle
    exact hle

/-- Witness for C5: concrete instantiation with all hypotheses discharged. -/
theorem getSafeGifPixelSize_monotone_witness :
    (1 ≤ 2 ∧ getSafeGifPixelSize 10 10 2 12 ≤ getSafeGifPixelSize 10 10 1 12) ∧
    (1 ≤ 12 ∧ getSafeGifPixelSize 10 10 5 12 ≤ 12) :=
  ⟨⟨by decide, (getSafeGifPixelSize_monotone 10 10 12 1 2 0 0 0 0 0).1 (by decide)⟩,
   ⟨by decide, (getSafeGifPixelSize_monotone 10 10 12 0 0 0 0 0 0 5).2.2 (by decide)⟩⟩

/-- C8: the 4,000,000-pixel ceiling is only conditionally enforced. If the
sample-cell budget `w*h*frameCount` is within the ceiling then the scaled
output `(w*k)*(h*k)*frameCount` also is; but once the cell budget alone
exceeds the ceiling the solver returns 1 and the total decoded pixel count of
the animated encode still exceeds the ceiling. -/
theorem gif_pixel_budget_conditional :
    ∀ (w h fc d : Nat),
      (w * h * fc ≤ MAX_GIF_PIXELS →
        (w * getSafeGifPixelSize w h fc d) * (h * getSafeGifPixelSize w h fc d) * fc ≤
          MAX_GIF_PIXELS) ∧
      (MAX_GIF_PIXELS < w * h * fc →
        getSafeGifPixelSize w h fc d = 1 ∧
        MAX_GIF_PIXELS < (w * getSafeGifPixelSize w h fc d) *
          (h * getSafeGifPixelSize w h fc d) * fc) := by
  intro w h fc d
  constructor
  · intro hle
    by_cases hA : w * h = 0
    · have : w = 0 ∨ h = 0 := by
        rcases Nat.mul_eq_zero.1 hA with h0 | h0
        · exact Or.inl h0
        · exact Or.inr h0
      rcases this with h0 | h0 <;> simp [h0, MAX_GIF_PIXELS]
    · by_cases hf : fc = 0
      · simp [hf, MAX_GIF_PIXELS]
      · set k := getSafeGifPixelSize w h fc d with hk
        have hP : 1 ≤ w * h * fc :=
          Nat.mul_pos (Nat.pos_of_ne_zero hA) (Nat.pos_of_ne_zero hf)
        have hbody : k = pixelBudgetBody (w * h * fc) d := getSafeGifPixelSize_eq_body d hA hf
        have hmax : max (w * h * fc) 1 = w * h * fc := max_eq_left hP
        have hdiv : 1 ≤ MAX_GIF_PIXELS / (w * h * fc) :=
          (Nat.le_div_iff_mul_le hP).2 (by omega)
        have hm1 : 1 ≤ jsSqrtFloor (MAX_GIF_PIXELS / max (w * h * fc) 1) := by
          rw [hmax]
          exact jsSqrtFloor_pos hdiv
        have hkm : k ≤ jsSqrtFloor (MAX_GIF_PIXELS / max (w * h * fc) 1) := by
          rw [hbody, pixelBudgetBody]
          split
          · rename_i hz
            omega
          · rename_i hz
            have h1 : 1 ≤ jsSqrtFloor (MAX_GIF_PIXELS / max (w * h * fc) 1) := by omega
            have h2 := Nat.min_le_right d (jsSqrtFloor (MAX_GIF_PIXELS / max (w * h * fc) 1))
            rw [max_le_iff]
            exact ⟨h1, h2⟩
        have hkk : k * k ≤ MAX_GIF_PIXELS / (w * h * fc) := by
          have hs := jsSqrtFloor_sq_le (MAX_GIF_PIXELS / max (w * h * fc) 1)
          rw [hmax] at hs hkm
          calc k * k ≤ jsSqrtFloor (MAX_GIF_PIXELS / (w * h * fc)) *
                jsSqrtFloor (MAX_GIF_PIXELS / (w * h * fc)) := Nat.mul_le_mul hkm hkm
            _ ≤ MAX_GIF_PIXELS / (w * h * fc) := hs
        have hmul : (w * h * fc) * (k * k) ≤ MAX_GIF_PIXELS := by
          calc (w * h * fc) * (k * k) ≤ (w * h * fc) * (MAX_GIF_PIXELS / (w * h * fc)) :=
                Nat.mul_le_mul_left _ hkk
            _ ≤ MAX_GIF_PIXELS := by
                rw [Nat.mul_comm]
                exact Nat.div_mul_le_self MAX_GIF_PIXELS (w * h * fc)
        calc (w * k) * (h * k) * fc = (w * h * fc) * (k * k) := by ring
          _ ≤ MAX_GIF_PIXELS := hmul
  · intro hgt
    have hA : w * h ≠ 0 := by
      intro h0
      rw [h0, Nat.zero_mul] at hgt
      omega
    have hf : fc ≠ 0 := by
      intro h0
      rw [h0, Nat.mul_zero] at hgt
      omega
    have hP : 1 ≤ w * h * fc :=
      Nat.mul_pos (Nat.pos_of_ne_zero hA) (Nat.pos_of_ne_zero hf)
    have hdiv : MAX_GIF_PIXELS / (w * h * fc) = 0 := Nat.div_eq_of_lt hgt
    have hk : getSafeGifPixelSize w h fc d = 1 := by
      rw [getSafeGifPixelSize_eq_body d hA hf, pixelBudgetBody]
      rw [max_eq_left hP, hdiv, jsSqrtFloor_zero]
      simp
    refine ⟨hk, ?_⟩
    rw [hk]
    calc MAX_GIF_PIXELS < w * h * fc := hgt
      _ = (w * 1) * (h * 1) * fc := by ring

/-- Witness for C8: a budget-respecting input and a budget-exceeding input. -/
theorem gif_pixel_budget_conditional_witness :
    (100 * 100 * 100 ≤ MAX_GIF_PIXELS ∧
      (100 * getSafeGifPixelSize 100 100 100 12) * (100 * getSafeGifPixelSize 100 100 100 12) *
        100 ≤ MAX_GIF_PIXELS) ∧
    (MAX_GIF_PIXELS < 3000 * 3000 * 10 ∧ getSafeGifPixelSize 3000 3000 10 12 = 1 ∧
      MAX_GIF_PIXELS < (3000 * getSafeGifPixelSize 3000 3000 10 12) *
        (3000 * getSafeGifPixelSize 3000 3000 10 12) * 10) :=
  ⟨⟨by decide, (gif_pixel_budget_conditional 100 100 100 12).1 (by decide)⟩,
   ⟨by decide, (gif_pixel_budget_conditional 3000 3000 10 12).2 (by decide)⟩⟩

/-- C9: `clampFrameDelay` returns 6 on non-finite or non-positive delays and
otherwise rounds and clamps into `[1, 65535]`; in particular 0, -5, NaN and
100000 map to 6, 6, 6 and 65535. -/
theorem clampFrameDelay_spec :
    ∀ (d : JsNumber) (q : ℚ),
      (jsIsFinite d = false → clampFrameDelay d = 6) ∧
      (q ≤ 0 → clampFrameDelay (JsNumber.finite q) = 6) ∧
      (0 < q → clampFrameDelay (JsNumber.finite q) = max 1 (min 65535 (round q))) ∧
      clampFrameDelay (JsNumber.finite 0) = 6 ∧
      clampFrameDelay (JsNumber.finite (-5)) = 6 ∧
      clampFrameDelay JsNumber.nan = 6 ∧
      clampFrameDelay (JsNumber.finite 100000) = 65535 := by
  intro d q
  refine ⟨?_, ?_, ?_, by decide, by decide, by decide, by decide⟩
  · intro hfin
    rw [clampFrameDelay]
    simp [hfin]
  · intro hq
    rw [clampFrameDelay]
    have : jsLeZero (JsNumber.finite q) = true := by
      simp [jsLeZero, hq]
    simp [this]
  · intro hq
    rw [clampFrameDelay]
    have h1 : jsIsFinite (JsNumber.finite q) = true := rfl
    have h2 : jsLeZero (JsNumber.finite q) = false := by
      simp [jsLeZero]
      linarith
    rw [← jsRound_eq_round]
    simp [h1, h2, jsToRat]

/-- Witness for C9: a positive fractional delay is rounded then clamped. -/
theorem clampFrameDelay_spec_witness :
    (0 : ℚ) < 7/2 ∧
      clampFrameDelay (JsNumber.finite (7/2)) = max 1 (min 65535 (round (7/2 : ℚ))) :=
  ⟨by norm_num, (clampFrameDelay_spec (JsNumber.finite (7/2)) (7/2)).2.2.1 (by norm_num)⟩

lemma firstIndexOf_eq_none_iff (hex : String) :
    ∀ l : List String, firstIndexOf hex l = none ↔ hex ∉ l := by
  intro l
  induction l with
  | nil => simp [firstIndexOf]
  | cons c t ih =>
    rw [firstIndexOf]
    by_cases hc : c = hex
    · simp [hc]
    · simp only [hc, if_false, Option.map_eq_none', List.mem_cons]
      rw [ih]
      constructor
      · intro hn hmem
        rcases hmem with h | h
        · exact hc h.symm
        · exact hn h
      · intro hn
        intro hmem
        exact hn (Or.inr hmem)

lemma firstIndexOf_spec (hex : String) :
    ∀ (l : List String) (i : Nat), firstIndexOf hex l = some i →
      l.getD i ("") = hex ∧ ∀ j, j < i → l.getD j ("") ≠ hex := by
  intro l
  induction l with
  | nil => intro i h; simp [firstIndexOf] at h
  | cons c t ih =>
    intro i h
    rw [firstIndexOf] at h
    by_cases hc : c = hex
    · simp only [hc, if_true] at h
      cases h
      exact ⟨by simp [hc], by intro j hj; omega⟩
    · simp only [hc, if_false, Option.map_eq_some'] at h
      rcases h with ⟨i0, hi0, hie⟩
      rcases ih i0 hi0 with ⟨h1, h2⟩
      subst hie
      refine ⟨by simpa using h1, ?_⟩
      intro j hj
      cases j with
      | zero => simpa using hc
      | succ j0 =>
        have := h2 j0 (by omega)
        simpa using this

lemma firstIndexOf_lt_length (hex : String) :
    ∀ (l : List String) (i : Nat), firstIndexOf hex l = some i → i < l.length := by
  intro l
  induction l with
  | nil => intro i h; simp [firstIndexOf] at h
  | cons c t ih =>
    intro i h
    rw [firstIndexOf] at h
    by_cases hc : c = hex
    · simp only [hc, if_true] at h
      cases h
      simp
    · simp only [hc, if_false, Option.map_eq_some'] at h
      rcases h with ⟨i0, hi0, hie⟩
      have := ih i0 hi0
      subst hie
      simp only [List.length_cons]
      omega

lemma firstIndexOf_isSome_of_mem (hex : String) :
    ∀ l : List String, hex ∈ l → ∃ i, firstIndexOf hex l = some i := by
  intro l
  induction l with
  | nil => intro h; simp at h
  | cons c t ih =>
    intro h
    rw [firstIndexOf]
    by_cases hc : c = hex
    · exact ⟨0, by simp [hc]⟩
    · have hmem : hex ∈ t := by
        rcases List.mem_cons.1 h with h1 | h1
        · exact absurd h1.symm hc
        · exact h1
      rcases ih hmem with ⟨i, hi⟩
      exact ⟨i + 1, by simp [hc, hi]⟩

lemma ceilLog2Aux_bound : ∀ fuel n, n ≤ fuel → n ≤ 2 ^ ceilLog2Aux fuel n := by
  intro fuel
  induction fuel with
  | zero => intro n h; simp [ceilLog2Aux]; omega
  | succ f ih =>
    intro n h
    rw [ceilLog2Aux]
    by_cases h1 : n ≤ 1
    · simp [h1]
    · have hrec := ih ((n + 1) / 2) (by omega)
      simp only [h1, if_false]
      rw [pow_succ]
      omega

lemma ceilLog2Aux_le : ∀ fuel n k, n ≤ 2 ^ k → ceilLog2Aux fuel n ≤ k := by
  intro fuel
  induction fuel with
  | zero => intro n k _; simp [ceilLog2Aux]
  | succ f ih =>
    intro n k hk
    rw [ceilLog2Aux]
    by_cases h1 : n ≤ 1
    · simp [h1]
    · simp only [h1, if_false]
      cases k with
      | zero => simp at hk; omega
      | succ k0 =>
        have step : (n + 1) / 2 ≤ 2 ^ k0 := by
          rw [pow_succ] at hk
          omega
        have := ih ((n + 1) / 2) k0 step
        omega

lemma ceilLog2Aux_pos : ∀ fuel n, 2 ≤ n → 1 ≤ fuel → 1 ≤ ceilLog2Aux fuel n := by
  intro fuel n h2 hf
  cases fuel with
  | zero => omega
  | succ f =>
    rw [ceilLog2Aux]
    have : ¬ n ≤ 1 := by omega
    simp [this]

lemma two_le_normalizedPalette_length (palette : List String) :
    2 ≤ (normalizedPalette palette).length := by
  rw [normalizedPalette]
  split <;> simp

lemma targetSize_eq_pow (palette : List String) :
    ∃ k, 1 ≤ k ∧ k ≤ 8 ∧ targetSize palette = 2 ^ k := by
  refine ⟨ceilLog2 (max 2 (cappedLength palette)), ?_, ?_, ?_⟩
  · rw [ceilLog2]
    exact ceilLog2Aux_pos _ _ (Nat.le_max_left _ _) (by omega)
  · rw [ceilLog2]
    apply ceilLog2Aux_le
    have h1 : cappedLength palette ≤ 256 := Nat.min_le_left _ _
    norm_num
    omega
  · rw [targetSize]
    have h1 : 1 ≤ ceilLog2 (max 2 (cappedLength palette)) := by
      rw [ceilLog2]
      exact ceilLog2Aux_pos _ _ (Nat.le_max_left _ _) (by omega)
    have h2 : 2 ≤ 2 ^ ceilLog2 (max 2 (cappedLength palette)) := by
      calc 2 = 2 ^ 1 := by norm_num
        _ ≤ 2 ^ ceilLog2 (max 2 (cappedLength palette)) :=
          Nat.pow_le_pow_right (by norm_num) h1
    omega

lemma paddedPalette_length (palette : List String) :
    (paddedPalette palette).length = targetSize palette := by
  rw [paddedPalette]
  simp only [List.length_append, List.length_take, List.length_replicate]
  omega

lemma two_le_paddedPalette_length (palette : List String) :
    2 ≤ (paddedPalette palette).length := by
  rw [paddedPalette_length]
  rcases targetSize_eq_pow palette with ⟨k, hk1, _, he⟩
  rw [he]
  calc 2 = 2 ^ 1 := by norm_num
    _ ≤ 2 ^ k := Nat.pow_le_pow_right (by norm_num) hk1

lemma targetSize_le_256 (palette : List String) : targetSize palette ≤ 256 := by
  rcases targetSize_eq_pow palette with ⟨k, _, hk8, he⟩
  rw [he]
  calc 2 ^ k ≤ 2 ^ 8 := Nat.pow_le_pow_right (by norm_num) hk8
    _ = 256 := by norm_num

lemma le_targetSize (palette : List String)
    (hle : (normalizedPalette palette).length ≤ 256) :
    (normalizedPalette palette).length ≤ targetSize palette := by
  have h2 := two_le_normalizedPalette_length palette
  have hcap : cappedLength palette = (normalizedPalette palette).length := by
    rw [cappedLength]
    omega
  have hmax : max 2 (cappedLength palette) = (normalizedPalette palette).length := by
    omega
  rw [targetSize, hmax]
  have := ceilLog2Aux_bound (normalizedPalette palette).length
      (normalizedPalette palette).length (le_refl _)
  rw [ceilLog2]
  omega

lemma fallbackHex_mem (palette : List String) :
    fallbackHex palette ∈ normalizedPalette palette := by
  have h2 := two_le_normalizedPalette_length palette
  rw [fallbackHex]
  have hlt : (normalizedPalette palette).length - 1 < (normalizedPalette palette).length := by
    omega
  rw [List.getD_eq_getElem (normalizedPalette palette) ("") hlt]
  exact List.getElem_mem hlt

lemma paddedPalette_subset (palette : List String) :
    ∀ x ∈ paddedPalette palette, x ∈ normalizedPalette palette := by
  intro x hx
  rw [paddedPalette] at hx
  rcases List.mem_append.1 hx with h | h
  · exact List.take_subset _ _ h
  · rw [List.eq_of_mem_replicate h]
    exact fallbackHex_mem palette

lemma dedupKeepFirst_aux :
    ∀ (l : List String) (acc : List String), (∀ x ∈ l, x ∉ acc) → l.Nodup →
      l.foldl (fun acc h => if h ∈ acc then acc else acc ++ [h]) acc = acc ++ l := by
  intro l
  induction l with
  | nil => intro acc _ _; simp
  | cons c t ih =>
    intro acc hdisj hnd
    rw [List.foldl_cons]
    have hc : c ∉ acc := hdisj c (by simp)
    rw [if_neg hc]
    have hstep := ih (acc ++ [c]) ?_ (List.Nodup.of_cons hnd)
    · rw [hstep]
      simp
    · intro x hx
      rw [List.mem_append]
      rintro (h | h)
      · exact hdisj x (by simp [hx]) h
      · simp at h
        subst h
        exact (List.nodup_cons.1 hnd).1 hx

lemma dedupKeepFirst_of_nodup (l : List String) (h : l.Nodup) : dedupKeepFirst l = l := by
  rw [dedupKeepFirst, dedupKeepFirst_aux l [] (by simp) h]
  simp

lemma bigColor_roundtrip : ∀ i ∈ List.range 257, bigColorIndex (bigColor i) = i := by decide

lemma bigColor_lower_fix : ∀ i ∈ List.range 257, jsToLowerCase (bigColor i) = bigColor i := by
  decide

lemma big257Palette_length : big257Palette.length = 257 := by
  rw [big257Palette]
  simp

lemma big257Palette_nodup : big257Palette.Nodup := by
  rw [big257Palette]
  apply List.Nodup.map_on
  · intro x hx y hy hxy
    have h1 := bigColor_roundtrip x hx
    have h2 := bigColor_roundtrip y hy
    rw [hxy] at h1
    omega
  · exact List.nodup_range 257

lemma big257Palette_normalized : normalizedPalette big257Palette = big257Palette := by
  have hne : big257Palette ≠ [] := by
    intro h
    have := big257Palette_length
    rw [h] at this
    simp at this
  have hbase : paletteBase big257Palette = big257Palette := if_neg hne
  have hlower : big257Palette.map (fun h => jsToLowerCase h) = big257Palette := by
    rw [big257Palette, List.map_map]
    exact List.map_congr_left (fun i hi => bigColor_lower_fix i hi)
  have hdedup : dedupKeepFirst (big257Palette.map (fun h => jsToLowerCase h)) = big257Palette := by
    rw [hlower]
    exact dedupKeepFirst_of_nodup _ big257Palette_nodup
  rw [normalizedPalette, hbase, hdedup]
  rcases hshape : big257Palette with _ | ⟨a, _ | ⟨b, t⟩⟩
  · exact absurd hshape hne
  · have := big257Palette_length
    rw [hshape] at this
    simp at this
  · rfl

lemma big257Palette_targetSize : targetSize big257Palette = 256 := by
  have hl : (normalizedPalette big257Palette).length = 257 := by
    rw [big257Palette_normalized, big257Palette_length]
  rw [targetSize, cappedLength, hl]
  have hmin : min 256 257 = 256 := by norm_num
  have hmax : max 2 256 = 256 := by norm_num
  rw [hmin, hmax]
  have hcl : ceilLog2 256 = 8 := by decide
  rw [hcl]
  norm_num

lemma big257Palette_padded : paddedPalette big257Palette = (List.range 256).map bigColor := by
  have hl : (normalizedPalette big257Palette).length = 257 := by
    rw [big257Palette_normalized, big257Palette_length]
  rw [paddedPalette, big257Palette_targetSize, hl, big257Palette_normalized]
  have hrep : (256 : Nat) - 257 = 0 := by norm_num
  rw [hrep]
  simp only [List.replicate_zero, List.append_nil]
  rw [big257Palette, ← List.map_take, List.take_range]
  norm_num

lemma big257Palette_fallbackHex : fallbackHex big257Palette = bigColor 256 := by
  have hl : (normalizedPalette big257Palette).length = 257 := by
    rw [big257Palette_normalized, big257Palette_length]
  rw [fallbackHex, hl, big257Palette_normalized, big257Palette]
  have h256 : (256 : Nat) < 257 := by norm_num
  rw [List.getD_eq_getElem?_getD, List.getElem?_map, List.getElem?_range h256]
  rfl

/-- C4 counterexample: with 257 pairwise distinct colors the deduplicated list
is truncated to 256 slots, the last original color occupies no slot in the
table (its lookup is `none`), and `fallbackIndex` falls back to 0 — the slot
of the first color — refuting the claim that `fallbackIndex` is the slot the
last pre-padding color occupies. -/
theorem buildPaletteLookup_fallback_counterexample :
    (buildPaletteLookup big257Palette).colorIndexMap (fallbackHex big257Palette) = none ∧
    (buildPaletteLookup big257Palette).fallbackIndex = 0 ∧
    fallbackHex big257Palette = ("#000100") ∧
    (paddedPalette big257Palette).getD 0 ("") = ("#000000") ∧
    ("#000100") ≠ ("#000000") := by
  have hnone : colorIndexMapGet big257Palette (fallbackHex big257Palette) = none := by
    rw [colorIndexMapGet, big257Palette_padded, big257Palette_fallbackHex,
      firstIndexOf_eq_none_iff]
    intro hmem
    rcases List.mem_map.1 hmem with ⟨i, hi, hbc⟩
    have hi257 : i ∈ List.range 257 := by
      simp only [List.mem_range] at hi ⊢
      omega
    have h1 := bigColor_roundtrip i hi257
    have h2 : bigColorIndex (bigColor 256) = 256 := by decide
    rw [hbc, h2] at h1
    simp only [List.mem_range] at hi
    omega
  refine ⟨?_, ?_, ?_, ?_, by decide⟩
  · rw [buildPaletteLookup_colorIndexMap]
    exact hnone
  · rw [buildPaletteLookup_fallbackIndex, fallbackIndex, hnone]
    rfl
  · rw [big257Palette_fallbackHex]
    decide
  · rw [big257Palette_padded]
    have h0 : (0 : Nat) < 256 := by norm_num
    rw [List.getD_eq_getElem?_getD, List.getElem?_map, List.getElem?_range h0]
    decide

/-- C4 (amended): whenever the deduplicated palette fits in the 256-slot
format ceiling, `fallbackIndex` is exactly the slot occupied by the last
pre-padding color: its lookup succeeds, returns `fallbackIndex`, and that slot
is the first occurrence of the color in the padded table. When more than 256
unique colors are supplied the last color is truncated away and occupies no
slot, and `fallbackIndex` degrades to 0. -/
theorem buildPaletteLookup_fallback_amended :
    ∀ palette : List String, (normalizedPalette palette).length ≤ 256 →
      ∃ i, (buildPaletteLookup palette).colorIndexMap (fallbackHex palette) = some i ∧
        (buildPaletteLookup palette).fallbackIndex = i ∧
        (paddedPalette palette).getD i ("") = fallbackHex palette ∧
        ∀ j, j < i → (paddedPalette palette).getD j ("") ≠ fallbackHex palette := by
  intro p hle
  have hmem : fallbackHex p ∈ paddedPalette p := by
    have hnp := fallbackHex_mem p
    rw [paddedPalette, List.take_of_length_le (le_targetSize p hle)]
    exact List.mem_append_left _ hnp
  rcases firstIndexOf_isSome_of_mem _ _ hmem with ⟨i, hi⟩
  refine ⟨i, ?_, ?_, (firstIndexOf_spec _ _ i hi).1, (firstIndexOf_spec _ _ i hi).2⟩
  · rw [buildPaletteLookup_colorIndexMap, colorIndexMapGet]
    exact hi
  · rw [buildPaletteLookup_fallbackIndex, fallbackIndex, colorIndexMapGet, hi]
    rfl

/-- Witness for C4's amended theorem at a concrete two-color palette. -/
theorem buildPaletteLookup_fallback_amended_witness :
    (normalizedPalette [("#ff0000"), ("#00FF00")]).length ≤ 256 ∧
    ∃ i, (buildPaletteLookup [("#ff0000"), ("#00FF00")]).colorIndexMap
          (fallbackHex [("#ff0000"), ("#00FF00")]) = some i ∧
        (buildPaletteLookup [("#ff0000"), ("#00FF00")]).fallbackIndex = i ∧
        (paddedPalette [("#ff0000"), ("#00FF00")]).getD i ("") =
          fallbackHex [("#ff0000"), ("#00FF00")] ∧
        ∀ j, j < i → (paddedPalette [("#ff0000"), ("#00FF00")]).getD j ("") ≠
          fallbackHex [("#ff0000"), ("#00FF00")] :=
  ⟨by decide, buildPaletteLookup_fallback_amended [("#ff0000"), ("#00FF00")] (by decide)⟩

lemma foldl_preserve {α : Type} {β : Type} (P : β → Prop) (f : β → α → β)
    (hf : ∀ b a, P b → P (f b a)) :
    ∀ (l : List α) (b : β), P b → P (l.foldl f b) := by
  intro l
  induction l with
  | nil => intro b hb; exact hb
  | cons a t ih => intro b hb; exact ih _ (hf b a hb)

lemma fallbackIndex_lt (p : List String) :
    fallbackIndex p < (paddedPalette p).length := by
  have h2 := two_le_paddedPalette_length p
  rw [fallbackIndex, colorIndexMapGet]
  rcases h3 : firstIndexOf (fallbackHex p) (paddedPalette p) with _ | j
  · simp only [Option.getD_none]
    omega
  · simp only [Option.getD_some]
    exact firstIndexOf_lt_length (fallbackHex p) (paddedPalette p) j h3

lemma cellIndex_lt (p : List String) (s : String) :
    cellIndex (buildPaletteLookup p) s < (paddedPalette p).length := by
  rw [cellIndex, buildPaletteLookup_colorIndexMap, buildPaletteLookup_fallbackIndex,
    colorIndexMapGet]
  rcases hcase : firstIndexOf (jsToLowerCase s) (paddedPalette p) with _ | i
  · simp only [Option.getD_none]
    exact fallbackIndex_lt p
  · simp only [Option.getD_some]
    exact firstIndexOf_lt_length (jsToLowerCase s) (paddedPalette p) i hcase

/-- C6: the padded palette's length is a power of two between 2 and 256, an
empty input palette is replaced by the black/white default, and a single
unique color is duplicated so at least two entries exist. -/
theorem buildPaletteLookup_padded_shape :
    ∀ (palette : List String) (c : String),
      (buildPaletteLookup palette).paletteColors.length = (paddedPalette palette).length ∧
      (∃ k, (paddedPalette palette).length = 2 ^ k) ∧
      2 ≤ (paddedPalette palette).length ∧
      (paddedPalette palette).length ≤ 256 ∧
      paddedPalette [] = [("#000000"), ("#ffffff")] ∧
      (dedupKeepFirst ((paletteBase palette).map (fun h => jsToLowerCase h)) = [c] →
        normalizedPalette palette = [c, c]) := by
  intro p c
  refine ⟨?_, ?_, two_le_paddedPalette_length p, ?_, by decide, ?_⟩
  · exact buildPaletteLookup_paletteColors_length p
  · rcases targetSize_eq_pow p with ⟨k, _, _, he⟩
    exact ⟨k, by rw [paddedPalette_length, he]⟩
  · rw [paddedPalette_length]
    exact targetSize_le_256 p
  · intro hsingle
    rw [normalizedPalette, hsingle]

/-- Witness for C6: a single-color palette is duplicated. -/
theorem buildPaletteLookup_padded_shape_witness :
    dedupKeepFirst ((paletteBase [("#ABC")]).map (fun h => jsToLowerCase h)) = [("#abc")] ∧
    normalizedPalette [("#ABC")] = [("#abc"), ("#abc")] :=
  ⟨by decide, (buildPaletteLookup_padded_shape [("#ABC")] ("#abc")).2.2.2.2.2 (by decide)⟩

/-- C7: a hex string whose lowercase form is not a palette color resolves to
the fallback slot, and every index the indexed-pixel encoder writes is
strictly below the padded palette length. -/
theorem colorGridToIndexedPixels_fallback_safe :
    ∀ (palette : List String) (hex : String) (grid : List (List String)) (ps : Nat)
      (buf : List Nat),
      (jsToLowerCase hex ∉ normalizedPalette palette →
        cellIndex (buildPaletteLookup palette) hex =
          (buildPaletteLookup palette).fallbackIndex) ∧
      (colorGridToIndexedPixels grid ps (buildPaletteLookup palette) = some buf →
        ∀ v ∈ buf, v < (buildPaletteLookup palette).paletteColors.length) := by
  intro p hex grid ps buf
  constructor
  · intro hnot
    rw [cellIndex, buildPaletteLookup_colorIndexMap]
    have hnone : colorIndexMapGet p (jsToLowerCase hex) = none := by
      rw [colorIndexMapGet, firstIndexOf_eq_none_iff]
      intro hmem
      exact hnot (paddedPalette_subset p _ hmem)
    rw [hnone]
    rfl
  · intro hsome v hv
    have hN : (buildPaletteLookup p).paletteColors.length = (paddedPalette p).length :=
      buildPaletteLookup_paletteColors_length p
    have hNpos : 0 < (buildPaletteLookup p).paletteColors.length := by
      have := two_le_paddedPalette_length p
      omega
    simp only [colorGridToIndexedPixels] at hsome
    split at hsome
    · exact absurd hsome (by simp)
    · rw [Option.some.injEq] at hsome
      subst hsome
      revert v hv
      have hstep4 : ∀ (y dy x : Nat) (b : List Nat),
          (∀ v2 ∈ b, v2 < (buildPaletteLookup p).paletteColors.length) →
          ∀ v2 ∈ (List.range ps).foldl (fun buf4 dx =>
              buf4.set ((y * ps + dy) * ((grid.headD []).length * ps) + (x * ps + dx))
                (cellIndex (buildPaletteLookup p) ((grid.getD y []).getD x ("")) % 256))
            b, v2 < (buildPaletteLookup p).paletteColors.length := by
        intro y dy x b hb
        refine foldl_preserve
          (fun b2 => ∀ v2 ∈ b2, v2 < (buildPaletteLookup p).paletteColors.length)
          _ ?_ _ b hb
        intro b4 dx hb4 v4 hv4
        rcases List.mem_or_eq_of_mem_set hv4 with h | h
        · exact hb4 v4 h
        · rw [h, hN]
          calc cellIndex (buildPaletteLookup p) ((grid.getD y []).getD x ("")) % 256
              ≤ cellIndex (buildPaletteLookup p) ((grid.getD y []).getD x ("")) :=
                Nat.mod_le _ _
            _ < (paddedPalette p).length := cellIndex_lt p _
      have hstep3 : ∀ (y dy : Nat) (b : List Nat),
          (∀ v2 ∈ b, v2 < (buildPaletteLookup p).paletteColors.length) →
          ∀ v2 ∈ (List.range (grid.headD []).length).foldl (fun buf3 x =>
              (List.range ps).foldl (fun buf4 dx =>
                buf4.set ((y * ps + dy) * ((grid.headD []).length * ps) + (x * ps + dx))
                  (cellIndex (buildPaletteLookup p) ((grid.getD y []).getD x ("")) % 256))
                buf3) b, v2 < (buildPaletteLookup p).paletteColors.length := by
        intro y dy b hb
        refine foldl_preserve
          (fun b2 => ∀ v2 ∈ b2, v2 < (buildPaletteLookup p).paletteColors.length)
          _ ?_ _ b hb
        intro b3 x hb3
        exact hstep4 y dy x b3 hb3
      have hstep2 : ∀ (y : Nat) (b : List Nat),
          (∀ v2 ∈ b, v2 < (buildPaletteLookup p).paletteColors.length) →
          ∀ v2 ∈ (List.range ps).foldl (fun buf2 dy =>
              (List.range (grid.headD []).length).foldl (fun buf3 x =>
                (List.range ps).foldl (fun buf4 dx =>
                  buf4.set ((y * ps + dy) * ((grid.headD []).length * ps) + (x * ps + dx))
                    (cellIndex (buildPaletteLookup p) ((grid.getD y []).getD x ("")) % 256))
                  buf3) buf2) b, v2 < (buildPaletteLookup p).paletteColors.length := by
        intro y b hb
        refine foldl_preserve
          (fun b2 => ∀ v2 ∈ b2, v2 < (buildPaletteLookup p).paletteColors.length)
          _ ?_ _ b hb
        intro b2 dy hb2
        exact hstep3 y dy b2 hb2
      refine foldl_preserve
        (fun b2 => ∀ v2 ∈ b2, v2 < (buildPaletteLookup p).paletteColors.length)
        _ ?_ _ _ ?_
      · intro b y hb
        exact hstep2 y b hb
      · intro v2 hv2
        rw [List.eq_of_mem_replicate hv2]
        exact hNpos

/-- Witness for C7: an unknown hex resolves to the fallback slot, and the
1×1 encode writes only in-range slot indices. -/
theorem colorGridToIndexedPixels_fallback_safe_witness :
    (jsToLowerCase ("#zzzzzz") ∉ normalizedPalette [("#123456")] ∧
      cellIndex (buildPaletteLookup [("#123456")]) ("#zzzzzz") =
        (buildPaletteLookup [("#123456")]).fallbackIndex) ∧
    (colorGridToIndexedPixels [[("#123456")]] 1 (buildPaletteLookup [("#123456")]) =
        some [0] ∧
      ∀ v ∈ [0], v < (buildPaletteLookup [("#123456")]).paletteColors.length) :=
  ⟨⟨by decide,
    (colorGridToIndexedPixels_fallback_safe [("#123456")] ("#zzzzzz") [[("#123456")]] 1
      []).1 (by decide)⟩,
   ⟨by decide,
    (colorGridToIndexedPixels_fallback_safe [("#123456")] ("#zzzzzz") [[("#123456")]] 1
      [0]).2 (by decide)⟩⟩

/-- C10: the indexed-pixel encoder fails (modelling the thrown
`EmptyGridError`) exactly when the grid has zero rows or zero columns, and on
any non-empty grid it returns a buffer of exactly `(w*k)*(h*k)` entries. -/
theorem colorGridToIndexedPixels_empty_iff :
    ∀ (grid : List (List String)) (ps : Nat) (lut : PaletteLookup),
      (colorGridToIndexedPixels grid ps lut = none ↔
        grid.length = 0 ∨ (grid.headD []).length = 0) ∧
      (grid.length ≠ 0 → (grid.headD []).length ≠ 0 →
        ∃ buf, colorGridToIndexedPixels grid ps lut = some buf ∧
          buf.length = ((grid.headD []).length * ps) * (grid.length * ps)) := by
  intro grid ps lut
  by_cases hc : grid.length = 0 ∨ (grid.headD []).length = 0
  · constructor
    · simp only [colorGridToIndexedPixels]
      rw [if_pos hc]
      exact iff_of_true rfl hc
    · intro h1 h2
      rcases hc with h | h
      · exact absurd h h1
      · exact absurd h h2
  · constructor
    · simp only [colorGridToIndexedPixels]
      rw [if_neg hc]
      exact iff_of_false (by simp) hc
    · intro _ _
      simp only [colorGridToIndexedPixels]
      rw [if_neg hc]
      refine ⟨_, rfl, ?_⟩
      refine foldl_preserve
        (fun b2 : List Nat => b2.length =
          ((grid.headD []).length * ps) * (grid.length * ps)) _ ?_ _ _ ?_
      · intro b y hb
        refine foldl_preserve (fun b2 : List Nat => b2.length = _) _ ?_ _ b hb
        intro b2 dy hb2
        refine foldl_preserve (fun b3 : List Nat => b3.length = _) _ ?_ _ b2 hb2
        intro b3 x hb3
        refine foldl_preserve (fun b4 : List Nat => b4.length = _) _ ?_ _ b3 hb3
        intro b4 dx hb4
        rw [List.length_set]
        exact hb4
      · simp only [List.length_replicate]

/-- Witness for C10: a 2×1 grid with block size 2 yields a 2×4 buffer. -/
theorem colorGridToIndexedPixels_empty_iff_witness :
    ([[("#aa0000")], [("#bb0000")]] : List (List String)).length ≠ 0 ∧
    (([[("#aa0000")], [("#bb0000")]] : List (List String)).headD []).length ≠ 0 ∧
    ∃ buf,
      colorGridToIndexedPixels [[("#aa0000")], [("#bb0000")]] 2
          ⟨[], fun _ => none, 0⟩ = some buf ∧
      buf.length =
        ((([[("#aa0000")], [("#bb0000")]] : List (List String)).headD []).length * 2) *
          (([[("#aa0000")], [("#bb0000")]] : List (List String)).length * 2) :=
  ⟨by decide, by decide,
   (colorGridToIndexedPixels_empty_iff [[("#aa0000")], [("#bb0000")]] 2
     ⟨[], fun _ => none, 0⟩).2 (by decide) (by decide)⟩

lemma selectClosest_fold_eq (r g b : Nat) :
    ∀ (t : List PaletteEntry) (c : PaletteEntry),
      (t.foldl
        (fun acc entry =>
          if sqDist entry.rgb r g b < acc.2 then (entry, sqDist entry.rgb r g b) else acc)
        (c, sqDist c.rgb r g b)).1 = argminFirst r g b c t := by
  intro t
  induction t with
  | nil =>
    intro c
    rw [argminFirst]
    rfl
  | cons e t ih =>
    intro c
    rw [List.foldl_cons, argminFirst]
    by_cases hde : sqDist e.rgb r g b < sqDist c.rgb r g b
    · rw [if_pos hde]
      simp only [if_pos hde]
      exact ih e
    · rw [if_neg hde]
      simp only [if_neg hde]
      exact ih c

lemma selectClosest_eq_argmin (r g b : Nat) (c : PaletteEntry) (t : List PaletteEntry)
    (hb : sqDist c.rgb r g b < maxDistanceInit) :
    selectClosest (c :: t) r g b = argminFirst r g b c t := by
  rw [selectClosest, List.headD_cons, List.foldl_cons]
  rw [if_pos hb]
  exact selectClosest_fold_eq r g b t c

lemma argminFirst_spec (r g b : Nat) :
    ∀ (t : List PaletteEntry) (c : PaletteEntry),
      ∃ l1 l2, c :: t = l1 ++ argminFirst r g b c t :: l2 ∧
        (∀ p ∈ c :: t, sqDist (argminFirst r g b c t).rgb r g b ≤ sqDist p.rgb r g b) ∧
        (∀ p ∈ l1, sqDist (argminFirst r g b c t).rgb r g b < sqDist p.rgb r g b) := by
  intro t
  induction t with
  | nil =>
    intro c
    refine ⟨[], [], by simp [argminFirst], ?_, by simp⟩
    intro p hp
    rw [argminFirst]
    rw [List.mem_singleton.1 hp]
  | cons e t ih =>
    intro c
    rw [argminFirst]
    by_cases hde : sqDist e.rgb r g b < sqDist c.rgb r g b
    · rw [if_pos hde]
      rcases ih e with ⟨l1, l2, hsplit, hmin, hstrict⟩
      refine ⟨c :: l1, l2, ?_, ?_, ?_⟩
      · rw [List.cons_append, ← hsplit]
      · intro p hp
        rcases List.mem_cons.1 hp with h | h
        · subst h
          exact le_of_lt (lt_of_le_of_lt (hmin e (by simp)) hde)
        · exact hmin p h
      · intro p hp
        rcases List.mem_cons.1 hp with h | h
        · subst h
          exact lt_of_le_of_lt (hmin e (by simp)) hde
        · exact hstrict p h
    · rw [if_neg hde]
      rcases ih c with ⟨l1, l2, hsplit, hmin, hstrict⟩
      rcases l1 with _ | ⟨c1, l1t⟩
      · rw [List.nil_append] at hsplit
        injection hsplit with h1 h2
        refine ⟨[], e :: t, ?_, ?_, by simp⟩
        · rw [List.nil_append, ← h1]
        · intro p hp
          rcases List.mem_cons.1 hp with h | h
          · subst h
            rw [← h1]
          · rcases List.mem_cons.1 h with h2 | h2
            · subst h2
              rw [← h1]
              exact not_lt.1 hde
            · exact hmin p (by simp [h2])
      · rw [List.cons_append] at hsplit
        injection hsplit with h1 h2
        refine ⟨c :: e :: l1t, l2, ?_, ?_, ?_⟩
        · rw [List.cons_append, List.cons_append]
          nth_rewrite 1 [h2]
          rfl
        · intro p hp
          rcases List.mem_cons.1 hp with h | h
          · rw [h]
            exact hmin c (by simp)
          · rcases List.mem_cons.1 h with h3 | h3
            · rw [h3]
              have hs := hstrict c1 (by simp)
              rw [← h1] at hs
              exact le_of_lt (lt_of_lt_of_le hs (not_lt.1 hde))
            · exact hmin p (by simp [h3])
        · intro p hp
          rcases List.mem_cons.1 hp with h | h
          · rw [h]
            have hs := hstrict c1 (by simp)
            rw [← h1] at hs
            exact hs
          · rcases List.mem_cons.1 h with h3 | h3
            · rw [h3]
              have hs := hstrict c1 (by simp)
              rw [← h1] at hs
              exact lt_of_lt_of_le hs (not_lt.1 hde)
            · exact hstrict p (by simp [h3])

lemma find?_append_first {p : PaletteEntry → Bool} :
    ∀ (l1 : List PaletteEntry) (m : PaletteEntry) (l2 : List PaletteEntry),
      (∀ a ∈ l1, p a = false) → p m = true →
      (l1 ++ m :: l2).find? p = some m := by
  intro l1
  induction l1 with
  | nil =>
    intro m l2 _ hm
    rw [List.nil_append]
    exact List.find?_cons_of_pos _ hm
  | cons a t ih =>
    intro m l2 hfa hm
    rw [List.cons_append, List.find?_cons_of_neg _ (by simp [hfa a (by simp)])]
    exact ih m l2 (fun x hx => hfa x (by simp [hx])) hm

lemma specNearestEntry_eq (r g b : Nat) (c : PaletteEntry) (t : List PaletteEntry)
    (hb : ∀ e ∈ c :: t, sqDist e.rgb r g b < maxDistanceInit) :
    specNearestEntry (c :: t) r g b = some (selectClosest (c :: t) r g b) := by
  rw [selectClosest_eq_argmin r g b c t (hb c (by simp))]
  rcases argminFirst_spec r g b t c with ⟨l1, l2, hsplit, hmin, hstrict⟩
  rw [specNearestEntry, hsplit]
  rw [hsplit] at hmin
  apply find?_append_first
  · intro a ha
    rw [Bool.eq_false_iff]
    intro htrue
    rw [List.all_eq_true] at htrue
    have hm := htrue (argminFirst r g b c t) (List.mem_append_right _ (by simp))
    rw [decide_eq_true_eq] at hm
    exact absurd hm (not_le.2 (hstrict a ha))
  · rw [List.all_eq_true]
    intro e2 he2
    rw [decide_eq_true_eq]
    exact hmin e2 he2

lemma getD_byte_lt {fp : List Nat} (hfp : ∀ v ∈ fp, v < 256) (d : Nat) :
    fp.getD d 0 < 256 := by
  rcases Nat.lt_or_ge d fp.length with h | h
  · rw [List.getD_eq_getElem fp 0 h]
    exact hfp _ (List.getElem_mem h)
  · rw [List.getD_eq_default fp 0 h]
    omega

lemma sqDist_lt_max {c : Rgb} {r g b : Nat} (hcr : c.r < 256) (hcg : c.g < 256)
    (hcb : c.b < 256) (hr : r < 256) (hg : g < 256) (hb : b < 256) :
    sqDist c r g b < maxDistanceInit := by
  rw [sqDist, maxDistanceInit]
  have h1 : ((c.r : ℤ) - (r : ℤ)) ^ 2 ≤ 255 ^ 2 :=
    sq_le_sq' (by omega) (by omega)
  have h2 : ((c.g : ℤ) - (g : ℤ)) ^ 2 ≤ 255 ^ 2 :=
    sq_le_sq' (by omega) (by omega)
  have h3 : ((c.b : ℤ) - (b : ℤ)) ^ 2 ≤ 255 ^ 2 :=
    sq_le_sq' (by omega) (by omega)
  have hsum : ((c.r : ℤ) - (r : ℤ)) ^ 2 + ((c.g : ℤ) - (g : ℤ)) ^ 2 +
      ((c.b : ℤ) - (b : ℤ)) ^ 2 ≤ 3 * 255 ^ 2 := by linarith
  calc ((c.r : ℤ) - (r : ℤ)) ^ 2 + ((c.g : ℤ) - (g : ℤ)) ^ 2 + ((c.b : ℤ) - (b : ℤ)) ^ 2
      ≤ 3 * 255 ^ 2 := hsum
    _ < 179769313486231570814527423731704356798070567525844996598917476803157260780028538760589558632766878171540458953514382464234321326889464182768467546703537516986049910576551282076245490090389328944075868508455133942304583236903222948165808559332123348274797826204144723168738177180919299881250404026184124858368 := by norm_num

/-- C2: for every non-empty palette of byte-valued entries and every grid
cell, `quantizeFramePixels` reads the source pixel at the clamped
center-mapping index and assigns the hex of the palette entry with minimum
squared Euclidean RGB distance (alpha ignored, first-listed entry winning
ties); with the black/white palette, source pixels (10,10,10), (250,250,250)
and (127,127,127) quantize to black, white and black respectively. -/
theorem quantizeFramePixels_nearest :
    ∀ (fp : List Nat) (sw sh gw gh x y : Nat) (pd : List PaletteEntry),
      (x < gw → y < gh →
        fp.length = sw * sh * 4 →
        (∀ v ∈ fp, v < 256) →
        (∀ e ∈ pd, e.rgb.r < 256 ∧ e.rgb.g < 256 ∧ e.rgb.b < 256) →
        pd ≠ [] →
        ∃ e, specNearestEntry pd
            (fp.getD (samplePixelIndex sw sh gw gh x y) 0)
            (fp.getD (samplePixelIndex sw sh gw gh x y + 1) 0)
            (fp.getD (samplePixelIndex sw sh gw gh x y + 2) 0) = some e ∧
          ((quantizeFramePixels fp sw sh gw gh pd).getD y []).getD x ("") = e.hex) ∧
      quantizeFramePixels [10, 10, 10, 255] 1 1 1 1 bwPalette = [[("#000000")]] ∧
      quantizeFramePixels [250, 250, 250, 255] 1 1 1 1 bwPalette = [[("#ffffff")]] ∧
      quantizeFramePixels [127, 127, 127, 255] 1 1 1 1 bwPalette = [[("#000000")]] := by
  intro fp sw sh gw gh x y pd
  refine ⟨?_, by decide, by decide, by decide⟩
  intro hx hy _ hfp hpd hne
  have hcell : ((quantizeFramePixels fp sw sh gw gh pd).getD y []).getD x ("") =
      (selectClosest pd
        (fp.getD (samplePixelIndex sw sh gw gh x y) 0)
        (fp.getD (samplePixelIndex sw sh gw gh x y + 1) 0)
        (fp.getD (samplePixelIndex sw sh gw gh x y + 2) 0)).hex := by
    have hrow : (quantizeFramePixels fp sw sh gw gh pd).getD y [] =
        (List.range gw).map (fun x =>
          (selectClosest pd
            (fp.getD (samplePixelIndex sw sh gw gh x y) 0)
            (fp.getD (samplePixelIndex sw sh gw gh x y + 1) 0)
            (fp.getD (samplePixelIndex sw sh gw gh x y + 2) 0)).hex) := by
      rw [quantizeFramePixels, List.getD_eq_getElem?_getD, List.getElem?_map,
        List.getElem?_range hy, Option.map_some', Option.getD_some]
    rw [hrow, List.getD_eq_getElem?_getD, List.getElem?_map, List.getElem?_range hx,
      Option.map_some', Option.getD_some]
  rcases pd with _ | ⟨c, t⟩
  · exact absurd rfl hne
  · refine ⟨selectClosest (c :: t)
      (fp.getD (samplePixelIndex sw sh gw gh x y) 0)
      (fp.getD (samplePixelIndex sw sh gw gh x y + 1) 0)
      (fp.getD (samplePixelIndex sw sh gw gh x y + 2) 0), ?_, hcell⟩
    apply specNearestEntry_eq
    intro e he
    rcases hpd e he with ⟨h1, h2, h3⟩
    exact sqDist_lt_max h1 h2 h3 (getD_byte_lt hfp _) (getD_byte_lt hfp _)
      (getD_byte_lt hfp _)

/-- Witness for C2's universal part at the concrete (10,10,10) example. -/
theorem quantizeFramePixels_nearest_witness :
    ((0 : Nat) < 1 ∧ ([10, 10, 10, 255] : List Nat).length = 1 * 1 * 4 ∧
      (∀ v ∈ ([10, 10, 10, 255] : List Nat), v < 256) ∧ bwPalette ≠ []) ∧
    ∃ e, specNearestEntry bwPalette
        (([10, 10, 10, 255] : List Nat).getD (samplePixelIndex 1 1 1 1 0 0) 0)
        (([10, 10, 10, 255] : List Nat).getD (samplePixelIndex 1 1 1 1 0 0 + 1) 0)
        (([10, 10, 10, 255] : List Nat).getD (samplePixelIndex 1 1 1 1 0 0 + 2) 0) =
          some e ∧
      ((quantizeFramePixels [10, 10, 10, 255] 1 1 1 1 bwPalette).getD 0 []).getD 0 ("") =
        e.hex :=
  ⟨⟨by decide, by decide, by decide, by decide⟩,
   (quantizeFramePixels_nearest [10, 10, 10, 255] 1 1 1 1 0 0 bwPalette).1
     (by decide) (by decide) (by decide) (by decide) (by decide) (by decide)⟩

/-- C3: a completion whose job id differs from the current one never commits
— it leaves the displayed result, vector data and status unchanged, and its
blob URL is revoked in the same step its staleness is detected (a non-blob
URL leaves the state entirely unchanged); a completion whose id equals the
current one commits its preview; and two successive triggers allocate
strictly increasing ids, after which the first trigger's id is stale. -/
theorem finalize_stale_never_commits :
    ∀ (s : AppState) (url : String) (vec : Option (List (List String) × Nat × Nat))
      (ps : Nat) (st : String) (j : Nat),
      (j ≠ s.currentJob →
        (finalize s j url vec ps st).resultPreview = s.resultPreview ∧
        (finalize s j url vec ps st).vectorData = s.vectorData ∧
        (finalize s j url vec ps st).status = s.status ∧
        (isBlobUrl url = true →
          (finalize s j url vec ps st).revokedUrls = s.revokedUrls ++ [url]) ∧
        (isBlobUrl url = false → finalize s j url vec ps st = s)) ∧
      (j = s.currentJob → (finalize s j url vec ps st).resultPreview = some url) ∧
      (s.hasSource = true →
        (rebuild s).2 = some (s.currentJob + 1) ∧
        (rebuild (rebuild s).1).2 = some (s.currentJob + 2) ∧
        s.currentJob + 1 < s.currentJob + 2 ∧
        (rebuild (rebuild s).1).1.currentJob = s.currentJob + 2 ∧
        s.currentJob + 1 ≠ (rebuild (rebuild s).1).1.currentJob) := by
  intro s url vec ps st j
  refine ⟨?_, ?_, ?_⟩
  · intro hj
    have hne : s.currentJob ≠ j := fun h => hj h.symm
    refine ⟨?_, ?_, ?_, ?_, ?_⟩
    · rw [finalize, if_pos hne]
      split <;> rfl
    · rw [finalize, if_pos hne]
      split <;> rfl
    · rw [finalize, if_pos hne]
      split <;> rfl
    · intro hb
      rw [finalize, if_pos hne, if_pos hb]
    · intro hb
      rw [finalize, if_pos hne, if_neg (by rw [hb]; exact Bool.false_ne_true)]
  · intro hj
    have heq : ¬ s.currentJob ≠ j := fun h => h hj.symm
    rw [finalize, if_neg heq]
    rcases vec with _ | v <;> rfl
  · intro hs
    refine ⟨?_, ?_, by omega, ?_, ?_⟩
    · simp [rebuild, hs]
    · simp [rebuild, hs]
    · simp [rebuild, hs]
    · simp [rebuild, hs]

/-- Witness for C3 at a concrete state and a stale blob completion. -/
theorem finalize_stale_never_commits_witness :
    ((5 ≠ exAppState.currentJob) ∧
      (finalize exAppState 5 ("blob:stale") none 4 ("")).resultPreview =
        exAppState.resultPreview) ∧
    exAppState.hasSource = true ∧
    (rebuild exAppState).2 = some (exAppState.currentJob + 1) :=
  ⟨⟨by decide,
    ((finalize_stale_never_commits exAppState ("blob:stale") none 4 ("") 5).1
      (by decide)).1⟩,
   by decide,
   ((finalize_stale_never_commits exAppState ("blob:stale") none 4 ("") 5).2.2
     (by decide)).1⟩

lemma mapIdxFrom_get? (f : Nat → Nat → Nat) :
    ∀ (l : List Nat) (i j : Nat),
      (mapIdxFrom f i l).get? j = (l.get? j).map (fun b => f (i + j) b) := by
  intro l
  induction l with
  | nil => intro i j; simp [mapIdxFrom]
  | cons b t ih =>
    intro i j
    cases j with
    | zero => simp [mapIdxFrom]
    | succ j0 =>
      rw [mapIdxFrom]
      simp only [List.get?_cons_succ]
      rw [ih (i + 1) j0]
      congr 1
      funext v
      congr 1
      omega

lemma clearFold_get? (cw x0 y0 w : Nat) :
    ∀ (n : Nat) (buf : List Nat) (j : Nat),
      ((List.range n).foldl (fun b row =>
        fillRange b 0 (((y0 + row) * cw + x0) * 4)
          (((y0 + row) * cw + x0) * 4 + w * 4)) buf).get? j =
      (buf.get? j).map (fun b =>
        if ∃ row, row < n ∧ ((y0 + row) * cw + x0) * 4 ≤ j ∧
            j < ((y0 + row) * cw + x0) * 4 + w * 4 then 0 else b) := by
  intro n
  induction n with
  | zero =>
    intro buf j
    rw [List.range_zero, List.foldl_nil]
    have hfalse : ¬ ∃ row, row < 0 ∧ ((y0 + row) * cw + x0) * 4 ≤ j ∧
        j < ((y0 + row) * cw + x0) * 4 + w * 4 := by
      rintro ⟨row, hrow, _⟩
      omega
    cases hb : buf.get? j
    · simp
    · simp [hfalse]
  | succ n ih =>
    intro buf j
    rw [List.range_succ, List.foldl_append, List.foldl_cons, List.foldl_nil]
    rw [fillRange, mapIdxFrom_get?, ih, Option.map_map]
    cases hb : buf.get? j
    · simp
    · simp only [Option.map_some', Function.comp_apply, Option.some.injEq, Nat.zero_add]
      by_cases hn : ((y0 + n) * cw + x0) * 4 ≤ j ∧ j < ((y0 + n) * cw + x0) * 4 + w * 4
      · rw [if_pos hn, if_pos ⟨n, by omega, hn.1, hn.2⟩]
      · rw [if_neg hn]
        have hiff : (∃ row, row < n + 1 ∧ ((y0 + row) * cw + x0) * 4 ≤ j ∧
            j < ((y0 + row) * cw + x0) * 4 + w * 4) ↔
            (∃ row, row < n ∧ ((y0 + row) * cw + x0) * 4 ≤ j ∧
              j < ((y0 + row) * cw + x0) * 4 + w * 4) := by
          constructor
          · rintro ⟨row, hrow, ha, hb2⟩
            rcases Nat.lt_or_ge row n with h | h
            · exact ⟨row, h, ha, hb2⟩
            · have : row = n := by omega
              subst this
              exact absurd ⟨ha, hb2⟩ hn
          · rintro ⟨row, hrow, ha, hb2⟩
            exact ⟨row, by omega, ha, hb2⟩
        rw [if_congr hiff rfl rfl]

lemma region_index_iff (cw x0 y0 w h j : Nat) (hw : x0 + w ≤ cw) :
    (∃ row, row < h ∧ ((y0 + row) * cw + x0) * 4 ≤ j ∧
        j < ((y0 + row) * cw + x0) * 4 + w * 4) ↔
    (x0 ≤ j / 4 % cw ∧ j / 4 % cw < x0 + w ∧ y0 ≤ j / 4 / cw ∧ j / 4 / cw < y0 + h) := by
  rcases Nat.eq_zero_or_pos cw with hcw | hcw
  · have hx0 : x0 = 0 := by omega
    have hw0 : w = 0 := by omega
    subst hcw hx0 hw0
    constructor
    · rintro ⟨row, _, ha, hb⟩
      omega
    · rintro ⟨_, hb, _, _⟩
      omega
  · constructor
    · rintro ⟨row, hrow, ha, hb⟩
      have hp1 : (y0 + row) * cw + x0 ≤ j / 4 := (Nat.le_div_iff_mul_le (by norm_num)).2 (by omega)
      have hp2 : j / 4 < (y0 + row) * cw + x0 + w := by
        have hj4 : j < ((y0 + row) * cw + x0 + w) * 4 := by omega
        exact (Nat.div_lt_iff_lt_mul (by norm_num)).2 hj4
      obtain ⟨r, hpe, hra, hrb⟩ : ∃ r, j / 4 = r + cw * (y0 + row) ∧ x0 ≤ r ∧ r < x0 + w := by
        refine ⟨j / 4 - (y0 + row) * cw, ?_, by omega, by omega⟩
        have hcomm : (y0 + row) * cw = cw * (y0 + row) := Nat.mul_comm _ _
        omega
      have hrw : r < cw := by omega
      have hmod : j / 4 % cw = r := by
        rw [hpe, Nat.add_mul_mod_self_left, Nat.mod_eq_of_lt hrw]
      have hdiv : j / 4 / cw = y0 + row := by
        rw [hpe, Nat.add_mul_div_left _ _ hcw, Nat.div_eq_of_lt hrw]
        omega
      rw [hmod, hdiv]
      refine ⟨by omega, by omega, by omega, by omega⟩
    · rintro ⟨ha, hb, hc, hd⟩
      have hdm := Nat.div_add_mod (j / 4) cw
      have hj4a : 4 * (j / 4) ≤ j := by omega
      have hj4b : j < 4 * (j / 4) + 4 := by omega
      refine ⟨j / 4 / cw - y0, by omega, ?_, ?_⟩
      · have hy : y0 + (j / 4 / cw - y0) = j / 4 / cw := by omega
        rw [hy]
        have hcomm : j / 4 / cw * cw = cw * (j / 4 / cw) := Nat.mul_comm _ _
        omega
      · have hy : y0 + (j / 4 / cw - y0) = j / 4 / cw := by omega
        rw [hy]
        have hcomm : j / 4 / cw * cw = cw * (j / 4 / cw) := Nat.mul_comm _ _
        omega

lemma clearFrameRegion_eq_specClearRegion (buffer : List Nat) (cw : Nat)
    (fr : FrameInfo) (hwf : fr.x + fr.width ≤ cw) :
    clearFrameRegion buffer cw fr = specClearRegion buffer cw fr := by
  apply List.ext_get?
  intro j
  rw [clearFrameRegion, clearFold_get? cw fr.x fr.y fr.width fr.height buffer j]
  rw [specClearRegion, mapIdxFrom_get?]
  cases hb : buffer.get? j
  · simp
  · simp only [Option.map_some', Option.some.injEq, Nat.zero_add]
    rw [if_congr (region_index_iff cw fr.x fr.y fr.width fr.height j hwf) rfl rfl]

lemma extractGifStep_eq_spec (cw : Nat) (acc : List Nat × List GifFrameData)
    (fr : FrameInfo × (List Nat → List Nat)) (hwf : fr.1.x + fr.1.width ≤ cw) :
    extractGifStep cw acc fr = specDisposalStep cw acc fr := by
  rw [extractGifStep, specDisposalStep]
  by_cases h2 : fr.1.disposal = 2
  · have h3 : fr.1.disposal ≠ 3 := by omega
    simp only [h2, if_true, if_false, Nat.reduceEqDiff]
    rw [clearFrameRegion_eq_specClearRegion _ cw fr.1 hwf]
  · by_cases h3 : fr.1.disposal = 3
    · simp [h2, h3]
    · simp [h2, h3]

lemma foldl_congr_mem {α β : Type} (f g : β → α → β) :
    ∀ (l : List α) (b : β), (∀ a ∈ l, ∀ x, f x a = g x a) → l.foldl f b = l.foldl g b := by
  intro l
  induction l with
  | nil => intro b _; rfl
  | cons a t ih =>
    intro b hfg
    rw [List.foldl_cons, List.foldl_cons, hfg a (by simp)]
    exact ih _ (fun a2 ha2 x => hfg a2 (by simp [ha2]) x)

/-- C1: `extractGifSource` implements the specification's disposal state
machine — one shared canvas initialized to zero, per frame: snapshot when the
disposal code is 3, composite the delta, capture the composited canvas with
the frame's delay, then clear the frame's rectangle (code 2), restore the
snapshot (code 3) or leave the canvas (any other code) — and on the concrete
2-frame source (full-canvas frame 0 with disposal 2, 10×10 patch frame 1 at
(5,5)) the captured frame-1 buffer is fully transparent outside the patch and
holds frame 1's pixels inside it. -/
theorem extractGifSource_disposal_machine :
    (∀ reader : GifReaderModel,
      (∀ fr ∈ reader.frames, fr.1.x + fr.1.width ≤ reader.width) →
      reader.frames.length ≠ 0 →
      ∃ s, extractGifSource reader = some s ∧ s.width = reader.width ∧
        s.height = reader.height ∧ s.loopCount = reader.loopCount ∧
        s.frames = specDisposalFrames reader) ∧
    gifExampleFrame1 = gifExampleExpected := by
  constructor
  · intro reader hwf hne
    refine ⟨⟨reader.width, reader.height, reader.loopCount,
      (reader.frames.foldl (extractGifStep reader.width)
        (List.replicate (reader.width * reader.height * 4) 0, [])).2⟩,
      ?_, rfl, rfl, rfl, ?_⟩
    · rw [extractGifSource, if_neg hne]
    · show (reader.frames.foldl (extractGifStep reader.width)
        (List.replicate (reader.width * reader.height * 4) 0, [])).2 =
        specDisposalFrames reader
      rw [specDisposalFrames,
        foldl_congr_mem (extractGifStep reader.width) (specDisposalStep reader.width)
          reader.frames (List.replicate (reader.width * reader.height * 4) 0, [])
          (fun fr hfr x => extractGifStep_eq_spec reader.width x fr (hwf fr hfr))]
  · decide

/-- Witness for C1's universal part at the concrete 2-frame example source. -/
theorem extractGifSource_disposal_machine_witness :
    ((∀ fr ∈ gifExampleReader.frames, fr.1.x + fr.1.width ≤ gifExampleReader.width) ∧
      gifExampleReader.frames.length ≠ 0) ∧
    ∃ s, extractGifSource gifExampleReader = some s ∧
      s.width = gifExampleReader.width ∧ s.height = gifExampleReader.height ∧
      s.loopCount = gifExampleReader.loopCount ∧
      s.frames = specDisposalFrames gifExampleReader :=
  ⟨⟨by decide, by decide⟩,
   extractGifSource_disposal_machine.1 gifExampleReader (by decide) (by decide)⟩
